import Mathlib

/-!
Verification of the reconciler adapter.

A shallow embedding of `internal/reconciler/implementation.go` from the
nginx-kubernetes-gateway repository, together with theorems about the
behaviour of `Implementation.Reconcile`.

Modelling choices, each justified by the Go source:

* Kubernetes objects (`client.Object` values) are modelled by `KObject`: a
  dynamic-type tag (standing for the reflect type), a namespace, a name and
  an opaque payload string.  Go errors are `KError`, carrying the
  `apierrors.IsNotFound` classification and a message.

* `newObject` allocates a fresh object via reflection and
  `Getter.Get` writes the fetched object into it in place.  To make
  allocation and in-place writes observable we run `Reconcile` over an
  explicit heap (`Heap`, a list of cells addressed by position).  The
  configured `ObjectType` template lives in a heap cell named by
  `Config.objectTypeAddr`; `newObject` reads its dynamic type and allocates a
  fresh zero-valued cell which the Getter may overwrite.

* The observable effects of one `Reconcile` call are collected in an ordered
  trace of `Action`s: the `Getter.Get` call, the `WebhookValidator` call, the
  `EventRecorder.Eventf` call, and the event sent on `EventCh`.

* The `select` statement at the end of `Reconcile` races the send on
  `EventCh` against `ctx.Done()`.  Per the Go specification, when several
  communications can proceed, one is chosen by uniform pseudo-random
  selection; so when the context is already cancelled AND the channel can
  accept the event, either branch may run.  `Env.ctxDone` records whether the
  context is already cancelled at the `select`; `Env.selectSend` is the
  oracle resolving the race: it is `true` exactly when the channel send is
  ready and the pseudo-random selection picks it.  When `ctxDone = false`
  the `select` can only ever complete through the send (the code blocks
  until the send is ready), so the send branch runs regardless of the
  oracle.

* `reconcile.Result` is a struct with a `Requeue` flag and a `RequeueAfter`
  duration; the Go code only ever returns the zero value `reconcile.Result`,
  modelled by `emptyResult`.
-/

namespace NKG

/-- Model of `types.NamespacedName`: the identity of a resource. -/
structure NamespacedName where
  ns : String
  name : String
deriving DecidableEq, Repr

/-- Model of a `client.Object` value: its reflect (dynamic) type tag,
its namespace and name, and an opaque payload. -/
structure KObject where
  typeTag : String
  ns : String
  name : String
  payload : String
deriving DecidableEq, Repr

instance : Inhabited KObject := ⟨⟨"", "", "", ""⟩⟩

/-- The zero value of a given dynamic type, as produced by
`reflect.New(t).Interface().(client.Object)` in `newObject`. -/
def zeroObject (tag : String) : KObject := ⟨tag, "", "", ""⟩

/-- Model of a Go `error` as classified by the reconciler: whether
`apierrors.IsNotFound` holds of it, plus its message. -/
structure KError where
  isNotFound : Bool
  msg : String
deriving DecidableEq, Repr

/-- A heap of object cells; an address is a position in the list. -/
structure Heap where
  cells : List KObject
deriving DecidableEq, Repr

/-- Read the cell at address `a` (default object when out of range). -/
def Heap.read (h : Heap) (a : Nat) : KObject := h.cells.getD a default

/-- Allocate a new cell holding `o`; returns the new heap and the fresh
address (one past the old cells). -/
def Heap.alloc (h : Heap) (o : KObject) : Heap × Nat :=
  (⟨h.cells ++ [o]⟩, h.cells.length)

/-- Overwrite the cell at address `a` with `o`. -/
def Heap.write (h : Heap) (a : Nat) (o : KObject) : Heap :=
  ⟨h.cells.set a o⟩

/-- The events of the `events` package as constructed by `Reconcile`:
`UpsertEvent` carries the fetched resource; `DeleteEvent` carries the
configured object-type template and the request's namespaced name. -/
inductive Event where
  | upsert (resource : KObject)
  | delete (objType : KObject) (nsname : NamespacedName)
deriving DecidableEq, Repr

/-- One observable side effect of a `Reconcile` call, in program order. -/
inductive Action where
  | getCalled (nsname : NamespacedName) (objAddr : Nat)
  | validateCalled (obj : KObject)
  | recordWarning (obj : KObject) (eventtype reason verr : String)
  | emit (e : Event)
deriving DecidableEq, Repr

/-- Model of `reconcile.Result` of controller-runtime: requeue flag and delay. -/
structure ReconcileResult where
  requeue : Bool
  requeueAfter : Nat
deriving DecidableEq, Repr

/-- The zero value `reconcile.Result` — the only result the code returns. -/
def emptyResult : ReconcileResult := ⟨false, 0⟩

/-- The `Config` of the `Implementation`: the address of the `ObjectType`
template in the heap, the optional `NamespacedNameFilter` and the optional
`WebhookValidator`.  The Getter's behaviour, being external, lives in `Env`;
the event channel and the event recorder are observed through the trace. -/
structure Config where
  objectTypeAddr : Nat
  namespacedNameFilter : Option (NamespacedName → Bool × String)
  webhookValidator : Option (KObject → Option String)

/-- The environment of one `Reconcile` call: what `Getter.Get` produces for
this request (`.ok o` fills the passed object with `o` and returns nil;
`.error e` returns the error `e` and leaves the object untouched), whether
the context is already cancelled when the final `select` runs, and the
resolution of the `select` race (see the file docstring). -/
structure Env where
  getResult : Except KError KObject
  ctxDone : Bool
  selectSend : Bool

/-- Result of one `Reconcile` call: the returned `reconcile.Result` and
error, and the ordered trace of observable actions. -/
structure Output where
  result : ReconcileResult
  error : Option KError
  trace : List Action
deriving DecidableEq, Repr

/-- Lines 83–88: `true` iff a `NamespacedNameFilter` is configured and
rejects the request's identity. -/
def filterRejects (cfg : Config) (req : NamespacedName) : Bool :=
  match cfg.namespacedNameFilter with
  | some f => !(f req).1
  | none => false

/-- Lines 129–134: the `select` racing `EventCh <- e` against
`ctx.Done()`.  The done branch runs exactly when the context is already
cancelled and the race oracle does not pick the send; otherwise the send
branch runs and the event is appended to the trace. -/
def emitOrCancel (env : Env) (e : Event) (pre : List Action) : List Action :=
  if env.ctxDone && !env.selectSend then pre else pre ++ [Action.emit e]

/-- Shallow embedding of `Implementation.Reconcile` (implementation.go,
lines 76–139), run over an explicit heap.  Returns the final heap and the
output (result, error, trace). -/
def reconcile (cfg : Config) (env : Env) (h : Heap) (req : NamespacedName) :
    Heap × Output :=
  -- lines 83–88: if the filter rejects, return Result{}, nil
  if filterRejects cfg req then
    (h, ⟨emptyResult, none, []⟩)
  else
    -- line 90: obj := newObject(r.cfg.ObjectType)
    let (h1, objAddr) := h.alloc (zeroObject (h.read cfg.objectTypeAddr).typeTag)
    -- line 91: err := r.cfg.Getter.Get(ctx, req.NamespacedName, obj)
    match env.getResult with
    | .error err =>
      if !err.isNotFound then
        -- lines 93–96: surface the non-not-found error
        (h1, ⟨emptyResult, some err, [Action.getCalled req objAddr]⟩)
      else
        -- line 98: obj = nil — the validator is skipped; lines 115–121:
        -- DeleteEvent with the configured type and the request's identity
        let e := Event.delete (h1.read cfg.objectTypeAddr) req
        (h1, ⟨emptyResult, none, emitOrCancel env e [Action.getCalled req objAddr]⟩)
    | .ok o =>
      -- Get wrote the fetched object into the fresh cell
      let h2 := h1.write objAddr o
      let obj := h2.read objAddr
      -- lines 101–104: validate only when found and a validator is set
      match cfg.webhookValidator with
      | none =>
        let e := Event.upsert obj
        (h2, ⟨emptyResult, none, emitOrCancel env e [Action.getCalled req objAddr]⟩)
      | some v =>
        match v obj with
        | none =>
          let e := Event.upsert obj
          (h2, ⟨emptyResult, none,
            emitOrCancel env e [Action.getCalled req objAddr, Action.validateCalled obj]⟩)
        | some verr =>
          -- lines 106–110: record the rejection warning via Eventf,
          -- then lines 115–121: treat the resource as deleted
          let pre := [Action.getCalled req objAddr, Action.validateCalled obj,
            Action.recordWarning obj "Warning" "Rejected" verr]
          let e := Event.delete (h2.read cfg.objectTypeAddr) req
          (h2, ⟨emptyResult, none, emitOrCancel env e pre⟩)

/-- The event a trace entry sent on the channel, if any. -/
def Action.emittedEvent : Action → Option Event
  | .emit e => some e
  | _ => none

/-- The events sent on `EventCh` during a call, in order. -/
def emittedEvents (tr : List Action) : List Event := tr.filterMap Action.emittedEvent

/-- Whether a trace entry is an `EventRecorder.Eventf` call. -/
def Action.isWarning : Action → Bool
  | .recordWarning .. => true
  | _ => false

/-- The `Eventf` calls of a trace, in order. -/
def recordedWarnings (tr : List Action) : List Action := tr.filter Action.isWarning

/-- `true` iff the Getter outcome is an error other than not-found
(the only outcome `Reconcile` surfaces as an error). -/
def isHardError : Except KError KObject → Bool
  | .error e => !e.isNotFound
  | .ok _ => false

/-- `true` iff the object was fetched successfully and the configured
validator (if any) accepts it — the upsert condition of lines 115–127. -/
def foundAndValid (cfg : Config) (env : Env) : Bool :=
  match env.getResult with
  | .ok o =>
    match cfg.webhookValidator with
    | some v => (v o).isNone
    | none => true
  | .error _ => false

/-! ## Heap lemmas -/

lemma Heap.read_alloc_of_lt (h : Heap) (o : KObject) {a : Nat}
    (ha : a < h.cells.length) : (h.alloc o).1.read a = h.read a := by
  simp [Heap.alloc, Heap.read, List.getElem?_append_left ha]

lemma Heap.read_write_of_ne (h : Heap) {a b : Nat} (o : KObject)
    (hab : b ≠ a) : (h.write b o).read a = h.read a := by
  simp [Heap.write, Heap.read, List.getElem?_set_ne hab]

lemma Heap.read_write_self (h : Heap) {a : Nat} (o : KObject)
    (ha : a < h.cells.length) : (h.write a o).read a = o := by
  simp [Heap.write, Heap.read, List.getElem?_set_self ha]

/-- The recorder calls of the `select` step are those of its prelude:
the `select` never records warnings. -/
lemma recordedWarnings_emitOrCancel (env : Env) (e : Event)
    (pre : List Action) :
    recordedWarnings (emitOrCancel env e pre) = recordedWarnings pre := by
  unfold emitOrCancel recordedWarnings
  split <;> simp [Action.isWarning, List.filter_append]

/-- When the context is not cancelled, the `select` completes through the
send branch and appends exactly the built event. -/
lemma emittedEvents_emitOrCancel_of_not_done (env : Env) (e : Event)
    (pre : List Action) (hc : env.ctxDone = false) :
    emittedEvents (emitOrCancel env e pre) = emittedEvents pre ++ [e] := by
  unfold emitOrCancel emittedEvents
  simp [hc, List.filterMap_append, Action.emittedEvent]

/-- When the done branch of the `select` runs, nothing is appended. -/
lemma emittedEvents_emitOrCancel_of_done (env : Env) (e : Event)
    (pre : List Action) (hc : env.ctxDone = true)
    (hs : env.selectSend = false) :
    emittedEvents (emitOrCancel env e pre) = emittedEvents pre := by
  unfold emitOrCancel emittedEvents
  simp [hc, hs]

/-- The `select` step appends the built event or nothing. -/
lemma emittedEvents_emitOrCancel_cases (env : Env) (e : Event)
    (pre : List Action) :
    emittedEvents (emitOrCancel env e pre) = emittedEvents pre ∨
    emittedEvents (emitOrCancel env e pre) = emittedEvents pre ++ [e] := by
  unfold emitOrCancel emittedEvents
  split
  · exact Or.inl rfl
  · exact Or.inr (by simp [List.filterMap_append, Action.emittedEvent])

/-! ## Theorems about Reconcile -/

/-- C5: when the configured filter rejects the request's identity,
`Reconcile` stops before fetching: the heap is untouched (no allocation, no
Getter write), the trace is empty (no Getter, validator, recorder or channel
action), and the call returns the empty result with a nil error. -/
theorem reconcile_filter_rejected (cfg : Config) (env : Env) (h : Heap)
    (req : NamespacedName) (hf : filterRejects cfg req = true) :
    reconcile cfg env h req = (h, ⟨emptyResult, none, []⟩) := by
  simp [reconcile, hf]

/-- C5 witness at a concrete input. -/
theorem reconcile_filter_rejected_witness :
    filterRejects ⟨0, some fun n => (n.name == "hr-1", "ignore"), none⟩
        ⟨"test", "other"⟩ = true ∧
    reconcile ⟨0, some fun n => (n.name == "hr-1", "ignore"), none⟩
        ⟨.ok ⟨"HTTPRoute", "test", "other", "x"⟩, false, false⟩
        ⟨[⟨"HTTPRoute", "", "", ""⟩]⟩ ⟨"test", "other"⟩
      = (⟨[⟨"HTTPRoute", "", "", ""⟩]⟩, ⟨emptyResult, none, []⟩) :=
  ⟨by decide,
    reconcile_filter_rejected _ _ _ _ (by decide)⟩

/-- C4: when the fetch fails with an error other than not-found,
`Reconcile` returns that error and performs no emission and no recorder
call — only the Getter call appears in the trace. -/
theorem reconcile_hard_fetch_error (cfg : Config) (env : Env) (h : Heap)
    (req : NamespacedName) (e : KError)
    (hf : filterRejects cfg req = false)
    (hg : env.getResult = .error e) (hnf : e.isNotFound = false) :
    (reconcile cfg env h req).2.error = some e ∧
    emittedEvents (reconcile cfg env h req).2.trace = [] ∧
    recordedWarnings (reconcile cfg env h req).2.trace = [] := by
  simp [reconcile, hf, hg, hnf, Heap.alloc, emittedEvents, recordedWarnings,
    Action.emittedEvent, Action.isWarning]

/-- C4 witness at a concrete input. -/
theorem reconcile_hard_fetch_error_witness :
    filterRejects ⟨0, none, none⟩ ⟨"test", "hr-1"⟩ = false ∧
    (⟨.error ⟨false, "boom"⟩, false, false⟩ : Env).getResult
      = .error ⟨false, "boom"⟩ ∧
    ((false : Bool), "boom").1 = false ∧
    (reconcile ⟨0, none, none⟩ ⟨.error ⟨false, "boom"⟩, false, false⟩
        ⟨[⟨"HTTPRoute", "", "", ""⟩]⟩ ⟨"test", "hr-1"⟩).2.error
      = some ⟨false, "boom"⟩ :=
  ⟨by decide, rfl, by decide,
    (reconcile_hard_fetch_error ⟨0, none, none⟩
      ⟨.error ⟨false, "boom"⟩, false, false⟩ ⟨[⟨"HTTPRoute", "", "", ""⟩]⟩
      ⟨"test", "hr-1"⟩ ⟨false, "boom"⟩ (by decide) rfl (by decide)).1⟩

/-- C1: when the fetch reports not-found (and the filter passes and the
context is not cancelled), `Reconcile` emits exactly one `DeleteEvent` —
carrying the configured object type and the request's identity — and
returns a nil error. -/
theorem reconcile_notFound_single_delete (cfg : Config) (env : Env)
    (h : Heap) (req : NamespacedName) (e : KError)
    (hf : filterRejects cfg req = false)
    (hg : env.getResult = .error e) (hnf : e.isNotFound = true)
    (hc : env.ctxDone = false)
    (ha : cfg.objectTypeAddr < h.cells.length) :
    emittedEvents (reconcile cfg env h req).2.trace
      = [Event.delete (h.read cfg.objectTypeAddr) req] ∧
    (reconcile cfg env h req).2.error = none := by
  have hr := Heap.read_alloc_of_lt h
    (zeroObject (h.read cfg.objectTypeAddr).typeTag) ha
  simp [reconcile, hf, hg, hnf, hc, emitOrCancel, emittedEvents,
    Action.emittedEvent, Heap.alloc]
  exact hr

/-- C1 witness at a concrete input. -/
theorem reconcile_notFound_single_delete_witness :
    filterRejects ⟨0, none, none⟩ ⟨"test", "hr-1"⟩ = false ∧
    emittedEvents (reconcile ⟨0, none, none⟩
        ⟨.error ⟨true, "nf"⟩, false, false⟩ ⟨[⟨"HTTPRoute", "", "", ""⟩]⟩
        ⟨"test", "hr-1"⟩).2.trace
      = [Event.delete (Heap.read ⟨[⟨"HTTPRoute", "", "", ""⟩]⟩ 0)
          ⟨"test", "hr-1"⟩] :=
  ⟨by decide,
    (reconcile_notFound_single_delete ⟨0, none, none⟩
      ⟨.error ⟨true, "nf"⟩, false, false⟩ ⟨[⟨"HTTPRoute", "", "", ""⟩]⟩
      ⟨"test", "hr-1"⟩ ⟨true, "nf"⟩ (by decide) rfl (by decide) (by decide)
      (by decide)).1⟩


/-- Concrete fixtures for witnesses: an HTTPRoute-typed template in cell 0,
a request identity, a fetched object, and a validator rejecting it. -/
def hrType : KObject := ⟨"HTTPRoute", "", "", ""⟩

def heap1 : Heap := ⟨[hrType]⟩

def req1 : NamespacedName := ⟨"test", "hr-1"⟩

def badObj : KObject := ⟨"HTTPRoute", "test", "hr-1", "bad"⟩

def goodObj : KObject := ⟨"HTTPRoute", "test", "hr-1", "ok"⟩

def vBad : KObject → Option String :=
  fun o => if o.payload == "bad" then some "test" else none

def cfgV : Config := ⟨0, none, some vBad⟩

/-- C2: when the object is fetched but the configured `WebhookValidator`
rejects it, `Reconcile` emits a `DeleteEvent` (not an `UpsertEvent`) for the
request's identity and records exactly one warning event against the object
via `EventRecorder.Eventf`; a not-found delete under the same configuration
records no warning. -/
theorem reconcile_validation_failure_delete_and_warning
    (cfg : Config) (env envD : Env) (h : Heap) (req : NamespacedName)
    (o : KObject) (v : KObject → Option String) (verr : String) (eD : KError)
    (hf : filterRejects cfg req = false)
    (hg : env.getResult = .ok o)
    (hv : cfg.webhookValidator = some v)
    (hverr : v o = some verr)
    (hc : env.ctxDone = false)
    (ha : cfg.objectTypeAddr < h.cells.length)
    (hgD : envD.getResult = .error eD) (hnfD : eD.isNotFound = true) :
    emittedEvents (reconcile cfg env h req).2.trace
      = [Event.delete (h.read cfg.objectTypeAddr) req] ∧
    recordedWarnings (reconcile cfg env h req).2.trace
      = [Action.recordWarning o "Warning" "Rejected" verr] ∧
    recordedWarnings (reconcile cfg envD h req).2.trace = [] := by
  have hobj : (Heap.write ⟨h.cells ++
      [zeroObject (h.read cfg.objectTypeAddr).typeTag]⟩
      h.cells.length o).read h.cells.length = o :=
    Heap.read_write_self _ o (by simp)
  have htempl : (Heap.write ⟨h.cells ++
      [zeroObject (h.read cfg.objectTypeAddr).typeTag]⟩
      h.cells.length o).read cfg.objectTypeAddr = h.read cfg.objectTypeAddr := by
    rw [Heap.read_write_of_ne _ o (Nat.ne_of_gt ha)]
    exact Heap.read_alloc_of_lt h _ ha
  have htr : (reconcile cfg env h req).2.trace
      = emitOrCancel env (Event.delete (h.read cfg.objectTypeAddr) req)
          [Action.getCalled req h.cells.length, Action.validateCalled o,
           Action.recordWarning o "Warning" "Rejected" verr] := by
    simp [reconcile, hf, hg, hv, Heap.alloc, hobj, htempl, hverr]
  have htrD : (reconcile cfg envD h req).2.trace
      = emitOrCancel envD
          (Event.delete
            ((⟨h.cells ++ [zeroObject (h.read cfg.objectTypeAddr).typeTag]⟩ :
              Heap).read cfg.objectTypeAddr) req)
          [Action.getCalled req h.cells.length] := by
    simp [reconcile, hf, hgD, hnfD, Heap.alloc]
  refine ⟨?_, ?_, ?_⟩
  · rw [htr, emittedEvents_emitOrCancel_of_not_done _ _ _ hc]
    simp [emittedEvents, Action.emittedEvent]
  · rw [htr, recordedWarnings_emitOrCancel]
    simp [recordedWarnings, Action.isWarning]
  · rw [htrD, recordedWarnings_emitOrCancel]
    simp [recordedWarnings, Action.isWarning]

/-- C2 witness at a concrete input. -/
theorem reconcile_validation_failure_delete_and_warning_witness :
    vBad badObj = some "test" ∧
    emittedEvents (reconcile cfgV ⟨.ok badObj, false, false⟩ heap1 req1).2.trace
      = [Event.delete (heap1.read 0) req1] ∧
    recordedWarnings
        (reconcile cfgV ⟨.ok badObj, false, false⟩ heap1 req1).2.trace
      = [Action.recordWarning badObj "Warning" "Rejected" "test"] ∧
    recordedWarnings
        (reconcile cfgV ⟨.error ⟨true, "nf"⟩, false, false⟩ heap1 req1).2.trace
      = [] := by
  have := reconcile_validation_failure_delete_and_warning cfgV
    ⟨.ok badObj, false, false⟩ ⟨.error ⟨true, "nf"⟩, false, false⟩ heap1 req1
    badObj vBad "test" ⟨true, "nf"⟩ (by decide) rfl rfl (by decide)
    (by decide) (by decide) rfl (by decide)
  exact ⟨by decide, this.1, this.2.1, this.2.2⟩

/-- C9: when the validator rejects the fetched object and the context is
already cancelled so that the done branch of the `select` runs, the warning
has nevertheless been recorded (the `Eventf` call precedes the `select` in
program order): the trace is exactly Getter call, validator call, recorder
call — one warning and no emitted event. -/
theorem reconcile_warning_recorded_despite_cancel
    (cfg : Config) (env : Env) (h : Heap) (req : NamespacedName)
    (o : KObject) (v : KObject → Option String) (verr : String)
    (hf : filterRejects cfg req = false)
    (hg : env.getResult = .ok o)
    (hv : cfg.webhookValidator = some v)
    (hverr : v o = some verr)
    (hc : env.ctxDone = true) (hs : env.selectSend = false) :
    (reconcile cfg env h req).2.trace
      = [Action.getCalled req h.cells.length, Action.validateCalled o,
         Action.recordWarning o "Warning" "Rejected" verr] ∧
    emittedEvents (reconcile cfg env h req).2.trace = [] := by
  have hobj : (Heap.write ⟨h.cells ++
      [zeroObject (h.read cfg.objectTypeAddr).typeTag]⟩
      h.cells.length o).read h.cells.length = o :=
    Heap.read_write_self _ o (by simp)
  refine ⟨?_, ?_⟩
  · simp [reconcile, hf, hg, hv, Heap.alloc, hobj, hverr, emitOrCancel,
      hc, hs]
  · simp [reconcile, hf, hg, hv, Heap.alloc, hobj, hverr, emitOrCancel,
      hc, hs, emittedEvents, Action.emittedEvent]

/-- C9 witness at a concrete input. -/
theorem reconcile_warning_recorded_despite_cancel_witness :
    vBad badObj = some "test" ∧
    (reconcile cfgV ⟨.ok badObj, true, false⟩ heap1 req1).2.trace
      = [Action.getCalled req1 1, Action.validateCalled badObj,
         Action.recordWarning badObj "Warning" "Rejected" "test"] ∧
    emittedEvents (reconcile cfgV ⟨.ok badObj, true, false⟩ heap1 req1).2.trace
      = [] := by
  have := reconcile_warning_recorded_despite_cancel cfgV
    ⟨.ok badObj, true, false⟩ heap1 req1 badObj vBad "test"
    (by decide) rfl rfl (by decide) rfl rfl
  exact ⟨by decide, this.1, this.2⟩

/-- Membership in the `select` step's trace of a non-emit action comes from
its prelude. -/
lemma getCalled_mem_emitOrCancel {env : Env} {e : Event} {pre : List Action}
    {n : NamespacedName} {a : Nat}
    (hm : Action.getCalled n a ∈ emitOrCancel env e pre) :
    Action.getCalled n a ∈ pre := by
  unfold emitOrCancel at hm
  split at hm
  · exact hm
  · rcases List.mem_append.mp hm with h1 | h1
    · exact h1
    · simp at h1

/-- Master case analysis of one `Reconcile` call: either the filter rejects
and nothing happens; or the fetch fails hard and the error is surfaced with
no emission; or the call reaches the `select` with the empty result, a nil
error, and a single built event — an upsert of the fetched object exactly
when the object was found and valid, a delete for the request's identity
otherwise. -/
lemma reconcile_cases (cfg : Config) (env : Env) (h : Heap)
    (req : NamespacedName) :
    (filterRejects cfg req = true ∧
      (reconcile cfg env h req).2 = ⟨emptyResult, none, []⟩) ∨
    (filterRejects cfg req = false ∧
      ∃ e, env.getResult = .error e ∧ e.isNotFound = false ∧
        (reconcile cfg env h req).2
          = ⟨emptyResult, some e, [Action.getCalled req h.cells.length]⟩) ∨
    (filterRejects cfg req = false ∧ isHardError env.getResult = false ∧
      ∃ ev pre, emittedEvents pre = [] ∧
        ((∃ o, env.getResult = .ok o ∧ ev = Event.upsert o) ∨
          (∃ t, ev = Event.delete t req)) ∧
        ((∃ o, ev = Event.upsert o) ↔ foundAndValid cfg env = true) ∧
        (reconcile cfg env h req).2
          = ⟨emptyResult, none, emitOrCancel env ev pre⟩) := by
  cases hfc : filterRejects cfg req
  case true =>
    exact Or.inl ⟨rfl, by simp [reconcile, hfc]⟩
  case false =>
    rcases hE : env.getResult with e | o
    · cases hb : e.isNotFound
      case false =>
        exact Or.inr (Or.inl ⟨rfl, e, rfl, hb,
          by simp [reconcile, hfc, hE, hb, Heap.alloc]⟩)
      case true =>
        refine Or.inr (Or.inr ⟨rfl, by simp [isHardError, hE, hb],
          Event.delete ((⟨h.cells ++
            [zeroObject (h.read cfg.objectTypeAddr).typeTag]⟩ : Heap).read
            cfg.objectTypeAddr) req,
          [Action.getCalled req h.cells.length], rfl,
          Or.inr ⟨_, rfl⟩, ?_, ?_⟩)
        · simp [foundAndValid, hE]
        · simp [reconcile, hfc, hE, hb, Heap.alloc]
    · have hobj : (Heap.write ⟨h.cells ++
          [zeroObject (h.read cfg.objectTypeAddr).typeTag]⟩
          h.cells.length o).read h.cells.length = o :=
        Heap.read_write_self _ o (by simp)
      rcases hV : cfg.webhookValidator with _ | v
      · refine Or.inr (Or.inr ⟨rfl, by simp [isHardError, hE],
          Event.upsert o, [Action.getCalled req h.cells.length], rfl,
          Or.inl ⟨o, rfl, rfl⟩, ?_, ?_⟩)
        · simp [foundAndValid, hE, hV]
        · simp [reconcile, hfc, hE, hV, Heap.alloc, hobj]
      · rcases hVo : v o with _ | verr
        · refine Or.inr (Or.inr ⟨rfl, by simp [isHardError, hE],
            Event.upsert o,
            [Action.getCalled req h.cells.length, Action.validateCalled o],
            rfl, Or.inl ⟨o, rfl, rfl⟩, ?_, ?_⟩)
          · simp [foundAndValid, hE, hV, hVo]
          · simp [reconcile, hfc, hE, hV, Heap.alloc, hobj, hVo]
        · refine Or.inr (Or.inr ⟨rfl, by simp [isHardError, hE],
            Event.delete ((Heap.write ⟨h.cells ++
              [zeroObject (h.read cfg.objectTypeAddr).typeTag]⟩
              h.cells.length o).read cfg.objectTypeAddr) req,
            [Action.getCalled req h.cells.length, Action.validateCalled o,
             Action.recordWarning o "Warning" "Rejected" verr],
            rfl, Or.inr ⟨_, rfl⟩, ?_, ?_⟩)
          · simp [foundAndValid, hE, hV, hVo]
          · simp [reconcile, hfc, hE, hV, Heap.alloc, hobj, hVo]

/-- C3 counterexample: the claim says a `Reconcile` call reaching the
emission step with an already-cancelled context emits no event.  But the
`select` picks uniformly at random among ready communications, so when the
channel can accept the event the send branch may run even though
`ctx.Done()` is ready: here the context is cancelled, yet one event is
emitted. -/
theorem reconcile_cancelled_may_emit_counterexample :
    ((⟨.ok goodObj, true, true⟩ : Env).ctxDone = true) ∧
    filterRejects ⟨0, none, none⟩ req1 = false ∧
    isHardError (⟨.ok goodObj, true, true⟩ : Env).getResult = false ∧
    emittedEvents (reconcile ⟨0, none, none⟩ ⟨.ok goodObj, true, true⟩
        heap1 req1).2.trace = [Event.upsert goodObj] := by
  refine ⟨rfl, rfl, rfl, ?_⟩
  decide

/-- C3 amended: a `Reconcile` call reaching the emission step with an
already-cancelled context returns a nil error and the empty result without
blocking, and emits at most one event; it emits no event whenever the
`select` does not resolve to the send branch — in particular whenever the
channel cannot immediately accept the event (e.g. the channel is full). -/
theorem reconcile_cancelled_returns_nil
    (cfg : Config) (env : Env) (h : Heap) (req : NamespacedName)
    (hf : filterRejects cfg req = false)
    (hhard : isHardError env.getResult = false)
    (hc : env.ctxDone = true) :
    (reconcile cfg env h req).2.error = none ∧
    (reconcile cfg env h req).2.result = emptyResult ∧
    (emittedEvents (reconcile cfg env h req).2.trace).length ≤ 1 ∧
    (env.selectSend = false →
      emittedEvents (reconcile cfg env h req).2.trace = []) := by
  rcases reconcile_cases cfg env h req with ⟨hfc, _⟩ |
    ⟨_, e, hE, hb, _⟩ | ⟨_, _, ev, pre, hpre, _, _, hout⟩
  · rw [hfc] at hf; cases hf
  · rw [hE] at hhard; simp [isHardError, hb] at hhard
  · rw [hout]
    refine ⟨rfl, rfl, ?_, ?_⟩
    · rcases emittedEvents_emitOrCancel_cases env ev pre with hcc | hcc <;>
        simp [hcc, hpre]
    · intro hs
      rw [emittedEvents_emitOrCancel_of_done env ev pre hc hs, hpre]

/-- C3 amended witness at a concrete input. -/
theorem reconcile_cancelled_returns_nil_witness :
    filterRejects ⟨0, none, none⟩ req1 = false ∧
    isHardError (⟨.ok goodObj, true, false⟩ : Env).getResult = false ∧
    (⟨.ok goodObj, true, false⟩ : Env).ctxDone = true ∧
    (reconcile ⟨0, none, none⟩ ⟨.ok goodObj, true, false⟩
        heap1 req1).2.error = none ∧
    emittedEvents (reconcile ⟨0, none, none⟩ ⟨.ok goodObj, true, false⟩
        heap1 req1).2.trace = [] := by
  have := reconcile_cancelled_returns_nil ⟨0, none, none⟩
    ⟨.ok goodObj, true, false⟩ heap1 req1 rfl rfl rfl
  exact ⟨rfl, rfl, rfl, this.1, this.2.2.2 rfl⟩

/-- C6: every `Reconcile` call emits at most one event; and whenever the
filter does not reject, the fetch does not fail hard, and the context is
not cancelled, it emits exactly one event — an `UpsertEvent` exactly when
the object was found and valid, and otherwise a `DeleteEvent` for the
request's identity. -/
theorem reconcile_exactly_one_event
    (cfg : Config) (env : Env) (h : Heap) (req : NamespacedName) :
    (emittedEvents (reconcile cfg env h req).2.trace).length ≤ 1 ∧
    (filterRejects cfg req = false → isHardError env.getResult = false →
      env.ctxDone = false →
      ∃ ev, emittedEvents (reconcile cfg env h req).2.trace = [ev] ∧
        ((∃ o, ev = Event.upsert o) ↔ foundAndValid cfg env = true) ∧
        (foundAndValid cfg env = false → ∃ t, ev = Event.delete t req)) := by
  rcases reconcile_cases cfg env h req with ⟨hfc, hout⟩ |
    ⟨hfc, e, hE, hb, hout⟩ | ⟨hfc, hhard, ev, pre, hpre, hshape, hiff, hout⟩
  · constructor
    · rw [hout]; simp [emittedEvents]
    · intro hf; rw [hfc] at hf; cases hf
  · constructor
    · rw [hout]; simp [emittedEvents, Action.emittedEvent]
    · intro _ hhard
      rw [hE] at hhard; simp [isHardError, hb] at hhard
  · constructor
    · rw [hout]
      rcases emittedEvents_emitOrCancel_cases env ev pre with hcc | hcc <;>
        simp [hcc, hpre]
    · intro _ _ hc
      refine ⟨ev, ?_, hiff, ?_⟩
      · rw [hout]
        rw [emittedEvents_emitOrCancel_of_not_done env ev pre hc, hpre]
        rfl
      · intro hfv
        rcases hshape with ⟨o, _, hup⟩ | ⟨t, hdel⟩
        · exact absurd (hiff.mp ⟨o, hup⟩) (by simp [hfv])
        · exact ⟨t, hdel⟩

/-- C6 witness at a concrete input. -/
theorem reconcile_exactly_one_event_witness :
    (emittedEvents (reconcile cfgV ⟨.ok goodObj, false, false⟩
        heap1 req1).2.trace).length ≤ 1 ∧
    (∃ ev, emittedEvents (reconcile cfgV ⟨.ok goodObj, false, false⟩
        heap1 req1).2.trace = [ev] ∧
      ((∃ o, ev = Event.upsert o) ↔
        foundAndValid cfgV ⟨.ok goodObj, false, false⟩ = true)) := by
  have := reconcile_exactly_one_event cfgV ⟨.ok goodObj, false, false⟩
    heap1 req1
  obtain ⟨ev, hev, hiff, _⟩ := this.2 rfl rfl rfl
  exact ⟨this.1, ev, hev, hiff⟩

/-- C8: for every outcome other than a non-not-found fetch error — filter
rejection, successful upsert, not-found delete, validation-failure delete,
cancelled-context return — `Reconcile` returns the empty
`reconcile.Result` together with a nil error. -/
theorem reconcile_empty_result_nil_error
    (cfg : Config) (env : Env) (h : Heap) (req : NamespacedName)
    (hno : filterRejects cfg req = true ∨ isHardError env.getResult = false) :
    (reconcile cfg env h req).2.result = emptyResult ∧
    (reconcile cfg env h req).2.error = none := by
  rcases reconcile_cases cfg env h req with ⟨hfc, hout⟩ |
    ⟨hfc, e, hE, hb, hout⟩ | ⟨hfc, hhard, ev, pre, hpre, hshape, hiff, hout⟩
  · rw [hout]; exact ⟨rfl, rfl⟩
  · rcases hno with hf | hh
    · rw [hfc] at hf; cases hf
    · rw [hE] at hh; simp [isHardError, hb] at hh
  · rw [hout]; exact ⟨rfl, rfl⟩

/-- C8 witness at a concrete input. -/
theorem reconcile_empty_result_nil_error_witness :
    (filterRejects cfgV req1 = true ∨
      isHardError (⟨.error ⟨true, "nf"⟩, false, false⟩ : Env).getResult
        = false) ∧
    (reconcile cfgV ⟨.error ⟨true, "nf"⟩, false, false⟩
        heap1 req1).2.result = emptyResult ∧
    (reconcile cfgV ⟨.error ⟨true, "nf"⟩, false, false⟩
        heap1 req1).2.error = none := by
  have := reconcile_empty_result_nil_error cfgV
    ⟨.error ⟨true, "nf"⟩, false, false⟩ heap1 req1 (Or.inr rfl)
  exact ⟨Or.inr rfl, this.1, this.2⟩

/-- With an emission-free prelude, any event in the `select` step's trace is
the built event itself. -/
lemma mem_emittedEvents_emitOrCancel {env : Env} {e ev : Event}
    {pre : List Action} (hpre : emittedEvents pre = [])
    (hm : ev ∈ emittedEvents (emitOrCancel env e pre)) : ev = e := by
  rcases emittedEvents_emitOrCancel_cases env e pre with hcc | hcc <;>
    rw [hcc, hpre] at hm
  · cases hm
  · simpa using hm

/-- C7: every `UpsertEvent` emitted by `Reconcile` carries exactly the
fetched object as its `Resource` payload, and every emitted `DeleteEvent`
carries exactly the configured `ObjectType` value and the request's
namespaced name — no object payload. -/
theorem reconcile_event_payloads
    (cfg : Config) (env : Env) (h : Heap) (req : NamespacedName)
    (ha : cfg.objectTypeAddr < h.cells.length) :
    ∀ ev ∈ emittedEvents (reconcile cfg env h req).2.trace,
      (∀ o, ev = Event.upsert o → env.getResult = .ok o) ∧
      (∀ t n, ev = Event.delete t n →
        t = h.read cfg.objectTypeAddr ∧ n = req) := by
  intro ev hm
  have halloc : (⟨h.cells ++
      [zeroObject (h.read cfg.objectTypeAddr).typeTag]⟩ : Heap).read
      cfg.objectTypeAddr = h.read cfg.objectTypeAddr :=
    Heap.read_alloc_of_lt h _ ha
  cases hfc : filterRejects cfg req
  case true => simp [reconcile, hfc, emittedEvents] at hm
  case false =>
    rcases hE : env.getResult with e | o
    · cases hb : e.isNotFound
      case false =>
        simp [reconcile, hfc, hE, hb, Heap.alloc, emittedEvents,
          Action.emittedEvent] at hm
      case true =>
        have htr : (reconcile cfg env h req).2.trace
            = emitOrCancel env (Event.delete (h.read cfg.objectTypeAddr) req)
                [Action.getCalled req h.cells.length] := by
          simp [reconcile, hfc, hE, hb, Heap.alloc, halloc]
        rw [htr] at hm
        have hev := mem_emittedEvents_emitOrCancel (by rfl) hm
        subst hev
        refine ⟨?_, ?_⟩
        · intro o heq; simp at heq
        · intro t n heq
          injection heq with h1 h2
          exact ⟨h1.symm, h2.symm⟩
    · have hobj : (Heap.write ⟨h.cells ++
          [zeroObject (h.read cfg.objectTypeAddr).typeTag]⟩
          h.cells.length o).read h.cells.length = o :=
        Heap.read_write_self _ o (by simp)
      have htempl : (Heap.write ⟨h.cells ++
          [zeroObject (h.read cfg.objectTypeAddr).typeTag]⟩
          h.cells.length o).read cfg.objectTypeAddr
          = h.read cfg.objectTypeAddr := by
        rw [Heap.read_write_of_ne _ o (Nat.ne_of_gt ha)]
        exact Heap.read_alloc_of_lt h _ ha
      have hupsert : ∀ o' : KObject, Event.upsert o = Event.upsert o' →
          (Except.ok o : Except KError KObject) = Except.ok o' := by
        intro o' heq
        injection heq with h1
        rw [h1]
      rcases hV : cfg.webhookValidator with _ | v
      · have htr : (reconcile cfg env h req).2.trace
            = emitOrCancel env (Event.upsert o)
                [Action.getCalled req h.cells.length] := by
          simp [reconcile, hfc, hE, hV, Heap.alloc, hobj]
        rw [htr] at hm
        have hev := mem_emittedEvents_emitOrCancel (by rfl) hm
        subst hev
        refine ⟨hupsert, ?_⟩
        intro t n heq; simp at heq
      · rcases hVo : v o with _ | verr
        · have htr : (reconcile cfg env h req).2.trace
              = emitOrCancel env (Event.upsert o)
                  [Action.getCalled req h.cells.length,
                   Action.validateCalled o] := by
            simp [reconcile, hfc, hE, hV, Heap.alloc, hobj, hVo]
          rw [htr] at hm
          have hev := mem_emittedEvents_emitOrCancel (by rfl) hm
          subst hev
          refine ⟨hupsert, ?_⟩
          intro t n heq; simp at heq
        · have htr : (reconcile cfg env h req).2.trace
              = emitOrCancel env
                  (Event.delete (h.read cfg.objectTypeAddr) req)
                  [Action.getCalled req h.cells.length,
                   Action.validateCalled o,
                   Action.recordWarning o "Warning" "Rejected" verr] := by
            simp [reconcile, hfc, hE, hV, Heap.alloc, hobj, hVo, htempl]
          rw [htr] at hm
          have hev := mem_emittedEvents_emitOrCancel (by rfl) hm
          subst hev
          refine ⟨?_, ?_⟩
          · intro o' heq; simp at heq
          · intro t n heq
            injection heq with h1 h2
            exact ⟨h1.symm, h2.symm⟩

/-- C7 witness at a concrete input. -/
theorem reconcile_event_payloads_witness :
    (0 : Nat) < heap1.cells.length ∧
    Event.delete hrType req1 ∈ emittedEvents (reconcile ⟨0, none, none⟩
      ⟨.error ⟨true, "nf"⟩, false, false⟩ heap1 req1).2.trace ∧
    (∀ t n, Event.delete hrType req1 = Event.delete t n →
      t = heap1.read 0 ∧ n = req1) :=
  ⟨by decide, by decide,
    (reconcile_event_payloads ⟨0, none, none⟩
      ⟨.error ⟨true, "nf"⟩, false, false⟩ heap1 req1 (by decide)
      (Event.delete hrType req1) (by decide)).2⟩

/-- C10: `Reconcile` never writes to a pre-existing heap cell: every cell
of the incoming heap — in particular the configured `ObjectType` template,
and with it the whole `Config` — is unchanged, and the object handed to the
Getter is always the freshly allocated zero-valued cell one past the
incoming heap. -/
theorem reconcile_fresh_alloc_frame
    (cfg : Config) (env : Env) (h : Heap) (req : NamespacedName) :
    (∀ a, a < h.cells.length →
      (reconcile cfg env h req).1.read a = h.read a) ∧
    (∀ n a, Action.getCalled n a ∈ (reconcile cfg env h req).2.trace →
      a = h.cells.length) := by
  cases hfc : filterRejects cfg req
  case true =>
    constructor
    · intro a _; simp [reconcile, hfc]
    · intro n a hm; simp [reconcile, hfc] at hm
  case false =>
    rcases hE : env.getResult with e | o
    · constructor
      · intro a haa
        have hra := Heap.read_alloc_of_lt h
          (zeroObject (h.read cfg.objectTypeAddr).typeTag) haa
        cases hb : e.isNotFound <;>
          · simp [reconcile, hfc, hE, hb, Heap.alloc]
            exact hra
      · intro n a hm
        cases hb : e.isNotFound
        case false =>
          simp [reconcile, hfc, hE, hb, Heap.alloc] at hm
          exact hm.2
        case true =>
          have htr : (reconcile cfg env h req).2.trace
              = emitOrCancel env
                  (Event.delete ((⟨h.cells ++
                    [zeroObject (h.read cfg.objectTypeAddr).typeTag]⟩ :
                    Heap).read cfg.objectTypeAddr) req)
                  [Action.getCalled req h.cells.length] := by
            simp [reconcile, hfc, hE, hb, Heap.alloc]
          rw [htr] at hm
          have hm' := getCalled_mem_emitOrCancel hm
          simp at hm'
          exact hm'.2
    · have hobj : (Heap.write ⟨h.cells ++
          [zeroObject (h.read cfg.objectTypeAddr).typeTag]⟩
          h.cells.length o).read h.cells.length = o :=
        Heap.read_write_self _ o (by simp)
      constructor
      · intro a haa
        have hra : (Heap.write ⟨h.cells ++
            [zeroObject (h.read cfg.objectTypeAddr).typeTag]⟩
            h.cells.length o).read a = h.read a := by
          rw [Heap.read_write_of_ne _ o (Nat.ne_of_gt haa)]
          exact Heap.read_alloc_of_lt h _ haa
        rcases hV : cfg.webhookValidator with _ | v
        · simp [reconcile, hfc, hE, hV, Heap.alloc]
          exact hra
        · rcases hVo : v o with _ | verr <;>
            · simp [reconcile, hfc, hE, hV, Heap.alloc, hobj, hVo]
              exact hra
      · intro n a hm
        rcases hV : cfg.webhookValidator with _ | v
        · have htr : (reconcile cfg env h req).2.trace
              = emitOrCancel env (Event.upsert o)
                  [Action.getCalled req h.cells.length] := by
            simp [reconcile, hfc, hE, hV, Heap.alloc, hobj]
          rw [htr] at hm
          have hm' := getCalled_mem_emitOrCancel hm
          simp at hm'
          exact hm'.2
        · rcases hVo : v o with _ | verr
          · have htr : (reconcile cfg env h req).2.trace
                = emitOrCancel env (Event.upsert o)
                    [Action.getCalled req h.cells.length,
                     Action.validateCalled o] := by
              simp [reconcile, hfc, hE, hV, Heap.alloc, hobj, hVo]
            rw [htr] at hm
            have hm' := getCalled_mem_emitOrCancel hm
            simp at hm'
            exact hm'.2
          · have htr : (reconcile cfg env h req).2.trace
                = emitOrCancel env
                    (Event.delete ((Heap.write ⟨h.cells ++
                      [zeroObject (h.read cfg.objectTypeAddr).typeTag]⟩
                      h.cells.length o).read cfg.objectTypeAddr) req)
                    [Action.getCalled req h.cells.length,
                     Action.validateCalled o,
                     Action.recordWarning o "Warning" "Rejected" verr] := by
              simp [reconcile, hfc, hE, hV, Heap.alloc, hobj, hVo]
            rw [htr] at hm
            have hm' := getCalled_mem_emitOrCancel hm
            simp at hm'
            exact hm'.2

/-- C10 witness at a concrete input. -/
theorem reconcile_fresh_alloc_frame_witness :
    (0 : Nat) < heap1.cells.length ∧
    (reconcile cfgV ⟨.ok goodObj, false, false⟩ heap1 req1).1.read 0
      = heap1.read 0 ∧
    Action.getCalled req1 1 ∈
      (reconcile cfgV ⟨.ok goodObj, false, false⟩ heap1 req1).2.trace ∧
    (1 : Nat) = heap1.cells.length :=
  ⟨by decide,
    (reconcile_fresh_alloc_frame cfgV ⟨.ok goodObj, false, false⟩
      heap1 req1).1 0 (by decide),
    by decide,
    (reconcile_fresh_alloc_frame cfgV ⟨.ok goodObj, false, false⟩
      heap1 req1).2 req1 1 (by decide)⟩

end NKG
